import Mathlib

/-!
Verification of the core state components of the openwebui-discord relay:
the token-bucket rate limiter (`internal/ratelimit/limiter.go`), the
per-channel conversation store (`internal/context/manager.go`), and the
retrying OpenWebUI client (`internal/openwebui/client.go`).

Modelling conventions:
* Instants and durations are monotonic-clock nanoseconds (`Nat`); Go's
  `time.Minute` is `60000000000` ns and `time.Second` is `1000000000` ns.
* Token counts are `Int`, matching Go's `int` fields (the values stay far
  below 2^63 because they are clamped by `maxTokens`, so wrap-around is
  irrelevant for them; where Go int64 wrap-around is relevant — the backoff
  computation — it is modelled explicitly with `wrap64`).
* Go's float64 expression `int(float64(elapsed)/float64(interval) *
  float64(rate))` is modelled with IEEE-754 binary64 semantics: a float
  is represented by its exact value as a fraction of naturals, `flFrac`
  performs correct rounding to nearest-even at 53-bit significand
  precision (every reachable magnitude lies in the binary64 normal
  range, so the exponent bounds never bind and are not modelled), each
  Go conversion and arithmetic operation is one exact operation followed
  by `flFrac`, and the final `int(...)` conversion truncates toward
  zero.
* Mutex-protected Go methods are modelled as pure state-transition
  functions (each critical section is one atomic transition); the
  double-checked-locking creation of per-channel buckets is additionally
  modelled as an explicit two-thread interleaved transition system.
-/

namespace Ratelimit

/-- Model of `ratelimit.Limiter`: a token bucket.  Field names follow the
Go struct; `refillInterval` and `lastRefill` are in nanoseconds. -/
structure Limiter where
  tokens : Int
  maxTokens : Int
  refillRate : Int
  refillInterval : Nat
  lastRefill : Nat
deriving DecidableEq, Repr

/-- Nanoseconds in `time.Minute`. -/
def minuteNanos : Nat := 60000000000

/-- Model of `NewLimiter`: full bucket, refill rate = capacity =
`requestsPerMinute`, interval one minute, `lastRefill` set to the creation
instant (`time.Now()`). -/
def newLimiter (requestsPerMinute : Int) (now : Nat) : Limiter :=
  { tokens := requestsPerMinute
    maxTokens := requestsPerMinute
    refillRate := requestsPerMinute
    refillInterval := minuteNanos
    lastRefill := now }

/-- `⌊(n / d) · 2^t⌋` for naturals `n`, `d` and a signed scaling
exponent `t`: the scaled significand used while searching for the
binary64 exponent. -/
def floorScaled (n d : Nat) (t : Int) : Nat :=
  if 0 ≤ t then n * 2 ^ t.toNat / d else n / (d * 2 ^ (-t).toNat)

/-- Find the scaling exponent `t` with `⌊(n / d) · 2^t⌋ ∈ [2^52, 2^53)`,
i.e. the position at which `n / d` has a normalized 53-bit binary64
significand.  Each adjustment moves `t` one step toward the target and
never overshoots, so the fuel (ample for every magnitude that fits the
binary64 normal range) is never exhausted on the inputs that occur. -/
def normExp (n d : Nat) : Nat → Int → Int
  | 0, t => t
  | fuel + 1, t =>
    if floorScaled n d t < 2 ^ 52 then normExp n d fuel (t + 1)
    else if 2 ^ 53 ≤ floorScaled n d t then normExp n d fuel (t - 1)
    else t

/-- Round the nonnegative rational `n / d` to the nearest binary64 value
(ties to even), returned as significand `m` and scaling exponent `t`:
the rounded value is `m / 2^t`.  This is IEEE-754 round-to-nearest-even
restricted to the normal range, which covers every magnitude the
limiter computation can produce. -/
def roundF64 (n d : Nat) : Nat × Int :=
  if n = 0 then (0, 0)
  else
    let t := normExp n d 200 0
    let N := if 0 ≤ t then n * 2 ^ t.toNat else n
    let D := if 0 ≤ t then d else d * 2 ^ (-t).toNat
    let m0 := N / D
    let r := N % D
    (if 2 * r < D then m0
     else if D < 2 * r then m0 + 1
     else if m0 % 2 = 0 then m0 else m0 + 1, t)

/-- The nearest binary64 value of `n / d` as an exact fraction of
naturals (numerator, positive denominator). -/
def flFrac (n d : Nat) : Nat × Nat :=
  let p := roundF64 n d
  if 0 ≤ p.2 then (p.1, 2 ^ p.2.toNat) else (p.1 * 2 ^ (-p.2).toNat, 1)

/-- The token gain computed by `refill`: Go's
`tokensToAdd := int(intervalsElapsed * float64(l.refillRate))` with
`intervalsElapsed := float64(elapsed) / float64(l.refillInterval)`,
under IEEE-754 binary64 semantics: each conversion and operation is the
exact value correctly rounded by `flFrac`, and the final `int(...)`
truncates toward zero.  The sign of a negative `refillRate` is applied
outside the magnitude pipeline (sound because every rounding and
truncation step is odd-symmetric, and the other operands are
nonnegative); `refillInterval` is positive in every bucket the
constructor builds, so the division-by-zero behavior of float64 is not
modelled. -/
def tokensToAdd (l : Limiter) (now : Nat) : Int :=
  let elapsed : Nat := now - l.lastRefill
  let e := flFrac elapsed 1
  let i := flFrac l.refillInterval 1
  let intervalsElapsed := flFrac (e.1 * i.2) (e.2 * i.1)
  let r := flFrac l.refillRate.natAbs 1
  let p := flFrac (intervalsElapsed.1 * r.1) (intervalsElapsed.2 * r.2)
  if l.refillRate < 0 then -((p.1 / p.2 : Nat) : Int) else ((p.1 / p.2 : Nat) : Int)

/-- Model of `Limiter.refill`: add `tokensToAdd` clamped to `maxTokens`
and advance `lastRefill`, but only when the gain is strictly positive. -/
def refill (l : Limiter) (now : Nat) : Limiter :=
  if 0 < tokensToAdd l now then
    { l with tokens := min l.maxTokens (l.tokens + tokensToAdd l now), lastRefill := now }
  else l

/-- Model of `Limiter.Allow`: refill, then consume one token when one is
available; returns the decision and the successor state. -/
def allow (l : Limiter) (now : Nat) : Bool × Limiter :=
  let l := refill l now
  if 0 < l.tokens then (true, { l with tokens := l.tokens - 1 })
  else (false, l)

/-- One iteration of the loop body of `Limiter.Wait`: refill, consume if a
token is available (in which case `Wait` returns), otherwise leave the
state unchanged and sleep.  `Wait` itself is the iteration of this step at
successive instants until it yields `true`. -/
def waitStep (l : Limiter) (now : Nat) : Bool × Limiter :=
  let l := refill l now
  if 0 < l.tokens then (true, { l with tokens := l.tokens - 1 })
  else (false, l)

/-- Model of `Limiter.RemainingTokens`: refill, report the count without
consuming; the refilled state persists (the Go method mutates `l`). -/
def remainingTokens (l : Limiter) (now : Nat) : Int × Limiter :=
  let l := refill l now
  (l.tokens, l)

/-- The operations a caller can perform on one bucket, each tagged with
the instant at which it runs (`Wait` is represented by its loop
iterations). -/
inductive LimiterOp where
  | allowOp (now : Nat)
  | waitStepOp (now : Nat)
  | remainingOp (now : Nat)
deriving DecidableEq, Repr

/-- State transition of one `LimiterOp`. -/
def applyOp (l : Limiter) : LimiterOp → Limiter
  | .allowOp now => (allow l now).2
  | .waitStepOp now => (waitStep l now).2
  | .remainingOp now => (remainingTokens l now).2

/-- Run a sequence of operations against a bucket. -/
def applyOps (l : Limiter) (ops : List LimiterOp) : Limiter :=
  ops.foldl applyOp l

/-- Run `allow` at each instant of the list in order, collecting the
decisions and the final state. -/
def allowSeq (l : Limiter) : List Nat → List Bool × Limiter
  | [] => ([], l)
  | t :: ts =>
    let p := allow l t
    let q := allowSeq p.2 ts
    (p.1 :: q.1, q.2)

/-- Model of `ratelimit.ChannelLimiter`: a per-channel bucket registry
(`limiters`, a map modelled as a function into `Option`) plus one shared
global bucket. -/
structure ChannelLimiter where
  limiters : String → Option Limiter
  globalLimiter : Limiter

/-- Model of `NewChannelLimiter`.  The Go constructor receives
`channelRequestsPerMinute` but never stores or reads it: only the global
bucket is built, and the map starts empty. -/
def newChannelLimiter (globalRequestsPerMinute channelRequestsPerMinute : Int)
    (now : Nat) : ChannelLimiter :=
  { limiters := fun _ => none
    globalLimiter := newLimiter globalRequestsPerMinute now }

/-- The double-checked get-or-create block shared verbatim by
`ChannelLimiter.Allow` and `ChannelLimiter.Wait`: look the channel up
under the read lock, and when absent create `NewLimiter(10)` (the
hard-coded per-channel default) under the write lock and insert it. -/
def getOrCreateChannelLimiter (cl : ChannelLimiter) (channelID : String)
    (now : Nat) : Limiter × ChannelLimiter :=
  match cl.limiters channelID with
  | some lim => (lim, cl)
  | none =>
    let lim := newLimiter 10 now
    (lim, { cl with limiters := fun k => if k = channelID then some lim else cl.limiters k })

/-- Model of `ChannelLimiter.Allow`: consult the global bucket first and
short-circuit on rejection; otherwise get-or-create the channel bucket
and consult it.  The Go method mutates heap objects in place; here every
mutated bucket is written back into the state. -/
def channelAllow (cl : ChannelLimiter) (channelID : String) (now : Nat) :
    Bool × ChannelLimiter :=
  let g := allow cl.globalLimiter now
  let cl1 : ChannelLimiter := { cl with globalLimiter := g.2 }
  if g.1 = false then (false, cl1)
  else
    let p := getOrCreateChannelLimiter cl1 channelID now
    let a := allow p.1 now
    (a.1, { p.2 with limiters := fun k => if k = channelID then some a.2 else p.2.limiters k })

end Ratelimit

namespace Ctx

/-- Model of `context.Message`: one conversation entry; `timestamp` is in
nanoseconds. -/
structure Message where
  role : String
  content : String
  name : String
  timestamp : Nat
deriving DecidableEq, Repr

/-- Model of `context.ChannelContext`: one channel's conversation
window. -/
structure ChannelContext where
  channelID : String
  messages : List Message
  lastActive : Nat
deriving DecidableEq, Repr

/-- The channel-to-window map held by `context.Manager`, modelled as a
function into `Option`. -/
def ContextMap : Type := String → Option ChannelContext

/-- Model of `Manager.pruneChannelContext`: compute
`cutoffTime = now − maxAgeMinutes minutes`; `firstValidIndex` is the index
of the first message with `Timestamp.After(cutoffTime)` (strictly later),
defaulting to 0 when the loop finds none; then the two truncation
branches of the Go code are applied verbatim (including the
`firstValidIndex >= len` branch, which is unreachable for a nonempty
window precisely because the loop default is 0). -/
def pruneChannelContext (maxAgeMinutes : Nat) (now : Nat)
    (ctx : ChannelContext) : ChannelContext :=
  if ctx.messages.length = 0 then ctx
  else
    let cutoffTime := now - maxAgeMinutes * Ratelimit.minuteNanos
    let firstValidIndex :=
      match ctx.messages.findIdx? (fun msg => decide (cutoffTime < msg.timestamp)) with
      | some i => i
      | none => 0
    if ctx.messages.length ≤ firstValidIndex then { ctx with messages := [] }
    else if 0 < firstValidIndex then { ctx with messages := ctx.messages.drop firstValidIndex }
    else ctx

/-- Model of `Manager.AddMessage`: get or create the window, append the
new entry stamped `now`, update `lastActive`, then prune. -/
def addMessage (m : ContextMap) (maxAgeMinutes : Nat) (channelID role content username : String)
    (now : Nat) : ContextMap :=
  let ctx : ChannelContext :=
    match m channelID with
    | some c => c
    | none => { channelID := channelID, messages := [], lastActive := 0 }
  let ctx := { ctx with
    messages := ctx.messages ++ [{ role := role, content := content, name := username, timestamp := now }]
    lastActive := now }
  let ctx := pruneChannelContext maxAgeMinutes now ctx
  fun k => if k = channelID then some ctx else m k

/-- Model of `Manager.GetMessages`: a copy of the window's entries, or the
empty list when the channel has no window (never an error). -/
def getMessages (m : ContextMap) (channelID : String) : List Message :=
  match m channelID with
  | none => []
  | some ctx => ctx.messages

/-- Model of `Manager.GetContextSize`: 0 when the channel has no
window. -/
def getContextSize (m : ContextMap) (channelID : String) : Nat :=
  match m channelID with
  | none => 0
  | some ctx => ctx.messages.length

/-- Model of `Manager.cleanupInactiveContexts` (the body of the periodic
sweep): windows whose `lastActive` is strictly before
`now − 2·maxAge` are deleted; every other window is prefix-pruned in
place. -/
def cleanupInactiveContexts (m : ContextMap) (maxAgeMinutes : Nat) (now : Nat) : ContextMap :=
  fun k =>
    match m k with
    | none => none
    | some ctx =>
      if ctx.lastActive < now - maxAgeMinutes * 2 * Ratelimit.minuteNanos then none
      else some (pruneChannelContext maxAgeMinutes now ctx)

end Ctx

namespace Owui

/-- Does `s` start with `sub`?  Helper for the substring check below. -/
def startsWithList : List Char → List Char → Bool
  | [], _ => true
  | _ :: _, [] => false
  | a :: as, b :: bs => a == b && startsWithList as bs

/-- Does `s` contain `sub` as a contiguous run?  Scans every suffix. -/
def containsList (s sub : List Char) : Bool :=
  match s with
  | [] => sub.isEmpty
  | _ :: rest => startsWithList sub s || containsList rest sub

/-- Model of the Go helper `contains(s, substr)` =
`bytes.Contains([]byte(s), []byte(substr))`; the strings involved are
ASCII, so the byte-level scan coincides with this character-level one. -/
def goContains (s substr : String) : Bool :=
  containsList s.data substr.data

/-- The error values `isRetryableError` distinguishes: the three wrapped
sentinels (`context.DeadlineExceeded`, `context.Canceled`, `io.EOF` /
`io.ErrUnexpectedEOF`) and every other error, represented by its message
text. -/
inductive GoError where
  | deadlineExceeded
  | canceled
  | eof
  | unexpectedEOF
  | textual (msg : String)
deriving DecidableEq, Repr

/-- Model of the JSON error body of `openwebui.ErrorResponse` once
unmarshalled. -/
structure APIErrorBody where
  message : String
  etype : String
  code : String
deriving DecidableEq, Repr

/-- The error message built by `ChatCompletion` on a non-200 response
(`client.go` lines 91–100): when the body unmarshals into
`ErrorResponse` the message is `API error: <message> (type: <type>,
code: <code>)` — with no status code in it — otherwise the fallback
`API error: status <code>, body: <body>`. -/
def apiErrorMessage (statusCode : Nat) (parsedBody : Option APIErrorBody)
    (body : String) : String :=
  match parsedBody with
  | some e =>
    "API error: " ++ e.message ++ " (type: " ++ e.etype ++ ", code: " ++ e.code ++ ")"
  | none => "API error: status " ++ Nat.repr statusCode ++ ", body: " ++ body

/-- Model of `isRetryableError`: deadline expiry, EOF and unexpected EOF
retry; explicit cancellation does not; any other error retries exactly
when its text contains `"429"` or `"status 5"`. -/
def isRetryableError : GoError → Bool
  | .deadlineExceeded => true
  | .canceled => false
  | .eof => true
  | .unexpectedEOF => true
  | .textual msg => goContains msg "429" || goContains msg "status 5"

/-- Reinterpret an integer as a two's-complement signed 64-bit value,
the wrap-around Go applies to `int64`/`time.Duration` arithmetic. -/
def wrap64 (x : Int) : Int :=
  (x + 2 ^ 63) % 2 ^ 64 - 2 ^ 63

/-- Nanoseconds in `time.Second`. -/
def secondNanos : Int := 1000000000

/-- The backoff slept before retry attempt `attempt ≥ 1` (`client.go`
lines 138–141): `time.Duration(1<<uint(attempt-1)) * time.Second`,
computed in wrapping int64 arithmetic, then capped at 30 seconds when it
exceeds that cap. -/
def backoffNanos (attempt : Nat) : Int :=
  let d := wrap64 (wrap64 (1 * 2 ^ (attempt - 1)) * secondNanos)
  if 30 * secondNanos < d then 30 * secondNanos else d

/-- The outcomes of `WithRetry`, one constructor per `return` site: the
completion text, the `context cancelled during backoff` error, the
`non-retryable error` wrapper and the `max retries exceeded` wrapper
(whose payload is the last observed failure, `nil` only if the loop never
ran). -/
inductive RetryOutcome where
  | success (completion : String)
  | cancelledDuringBackoff (attempt : Nat)
  | nonRetryable (e : GoError)
  | maxRetriesExceeded (lastErr : Option GoError)
deriving DecidableEq, Repr

/-- Model of the loop of `WithRetry`, paired with the number of times the
operation is invoked.  `op n` is the result of the `GetCompletion` call
of attempt `n`; `cancelled n = true` means the context's cancellation
signal fires during the backoff sleep that precedes attempt `n`; `fuel`
is the number of loop iterations still permitted
(`maxRetries + 1 − attempt`).  Running out of fuel is the loop exit,
returning the `max retries exceeded` wrapper around the last failure. -/
def withRetryAux (op : Nat → Except GoError String) (cancelled : Nat → Bool) :
    Nat → Nat → Option GoError → RetryOutcome × Nat
  | _, 0, lastErr => (.maxRetriesExceeded lastErr, 0)
  | attempt, fuel + 1, _ =>
    if 0 < attempt ∧ cancelled attempt = true then (.cancelledDuringBackoff attempt, 0)
    else
      match op attempt with
      | .ok s => (.success s, 1)
      | .error e =>
        if isRetryableError e then
          let r := withRetryAux op cancelled (attempt + 1) fuel (some e)
          (r.1, r.2 + 1)
        else (.nonRetryable e, 1)

/-- Model of `WithRetry`: attempts run from 0 through `maxRetries`
inclusive. -/
def withRetry (op : Nat → Except GoError String) (cancelled : Nat → Bool)
    (maxRetries : Nat) : RetryOutcome × Nat :=
  withRetryAux op cancelled 0 (maxRetries + 1) none

end Owui

namespace Dcl

/-!
Interleaving model of the double-checked bucket creation in
`ChannelLimiter.Allow` / `ChannelLimiter.Wait` for one contended channel
key and two concurrent callers.  Each mutex-protected region of the Go
code is one atomic transition: the `RLock` read of the map is one step,
and the `Lock` re-check-create-insert block is one step.  A bucket is
identified by the thread that allocated it, so that "the same bucket
instance" is expressible.
-/

/-- Where a thread stands in the get-or-create block: before the RLock
read, after having read the key as absent, or finished (holding the
bucket it will consume from). -/
inductive PC where
  | start
  | sawAbsent
  | done
deriving DecidableEq, Repr

/-- One caller: its program counter and the bucket it has picked up. -/
structure Thread where
  pc : PC
  localBucket : Option (Fin 2)
deriving DecidableEq, Repr

/-- Shared state: the map entry for the contended key (`none` = key
unseen; `some i` = the bucket allocated by thread `i`), the number of
`NewLimiter` allocations inserted so far, and the two callers. -/
structure SState where
  bucket : Option (Fin 2)
  created : Nat
  threads : Fin 2 → Thread

/-- Replace thread `i`. -/
def setThread (s : SState) (i : Fin 2) (t : Thread) : SState :=
  { s with threads := fun j => if j = i then t else s.threads j }

/-- One atomic step of thread `i`: the RLock read (from `start`), or the
Lock re-check which either adopts the bucket another thread created or
creates and inserts its own (from `sawAbsent`).  A finished thread does
nothing. -/
def threadStep (s : SState) (i : Fin 2) : SState :=
  match (s.threads i).pc with
  | .done => s
  | .start =>
    match s.bucket with
    | some b => setThread s i { pc := .done, localBucket := some b }
    | none => setThread s i { pc := .sawAbsent, localBucket := (s.threads i).localBucket }
  | .sawAbsent =>
    match s.bucket with
    | some b => setThread s i { pc := .done, localBucket := some b }
    | none =>
      { bucket := some i
        created := s.created + 1
        threads := fun j => if j = i then { pc := .done, localBucket := some i } else s.threads j }

/-- Both callers at the top of the block, key unseen, nothing created. -/
def initState : SState :=
  { bucket := none, created := 0, threads := fun _ => { pc := .start, localBucket := none } }

/-- Run an interleaving: the scheduler picks which thread steps next. -/
def run (sched : List (Fin 2)) : SState :=
  sched.foldl threadStep initState

end Dcl

/-- Concrete state for exercising the global short-circuit: an exhausted
global bucket next to a well-stocked bucket for channel `"c"`. -/
def clGlobalEmpty : Ratelimit.ChannelLimiter :=
  { limiters := fun k => if k = "c" then some (Ratelimit.newLimiter 5 0) else none
    globalLimiter := Ratelimit.newLimiter 0 0 }

/-- A window holding exactly one entry, stamped at instant 0. -/
def ctxStale : Ctx.ChannelContext :=
  { channelID := "c"
    messages := [{ role := "user", content := "hi", name := "alice", timestamp := 0 }]
    lastActive := 0 }

/-- A window last active at instant 0 (long idle by instant 300 s). -/
def ctxOld : Ctx.ChannelContext :=
  { channelID := "old"
    messages := [{ role := "user", content := "hi", name := "alice", timestamp := 0 }]
    lastActive := 0 }

/-- A window freshly active at instant 300 s. -/
def ctxFresh : Ctx.ChannelContext :=
  { channelID := "fresh"
    messages := [{ role := "user", content := "hey", name := "bob", timestamp := 300000000000 }]
    lastActive := 300000000000 }

/-- A store holding the idle window and the fresh window. -/
def mapTwoWindows : Ctx.ContextMap :=
  fun k => if k = "old" then some ctxOld else if k = "fresh" then some ctxFresh else none


/-- The invariant carried through every interleaving of the two callers:
the allocation count matches whether the map entry is filled, and a
finished caller holds exactly the bucket stored in the map. -/
def DclInv (s : Dcl.SState) : Prop :=
  (s.created = if s.bucket.isSome then 1 else 0)
  ∧ ∀ i, (s.threads i).pc = Dcl.PC.done →
      s.bucket.isSome ∧ (s.threads i).localBucket = s.bucket

lemma dclInv_step (s : Dcl.SState) (i : Fin 2) (h : DclInv s) :
    DclInv (Dcl.threadStep s i) := by
  obtain ⟨hc, hd⟩ := h
  unfold Dcl.threadStep
  cases hpc : (s.threads i).pc with
  | done => exact ⟨hc, hd⟩
  | start =>
    cases hb : s.bucket with
    | some b =>
      refine ⟨by simpa [Dcl.setThread, hb] using hc, ?_⟩
      intro j hj
      by_cases hji : j = i
      · subst hji; simp [Dcl.setThread, hb]
      · simp only [Dcl.setThread, hji, if_neg hji] at hj ⊢
        exact hd j hj
    | none =>
      refine ⟨by simpa [Dcl.setThread, hb] using hc, ?_⟩
      intro j hj
      by_cases hji : j = i
      · subst hji; simp [Dcl.setThread] at hj
      · simp only [Dcl.setThread, if_neg hji] at hj ⊢
        exact hd j hj
  | sawAbsent =>
    cases hb : s.bucket with
    | some b =>
      refine ⟨by simpa [Dcl.setThread, hb] using hc, ?_⟩
      intro j hj
      by_cases hji : j = i
      · subst hji; simp [Dcl.setThread, hb]
      · simp only [Dcl.setThread, if_neg hji] at hj ⊢
        exact hd j hj
    | none =>
      refine ⟨by simp [hb] at hc; simp [hc], ?_⟩
      intro j hj
      by_cases hji : j = i
      · subst hji; simp
      · simp only [if_neg hji] at hj ⊢
        have := hd j hj
        rw [hb] at this
        simpa using this.1

lemma dclInv_foldl (sched : List (Fin 2)) :
    ∀ s : Dcl.SState, DclInv s → DclInv (sched.foldl Dcl.threadStep s) := by
  induction sched with
  | nil => intro s h; exact h
  | cons i rest ih =>
    intro s h
    exact ih _ (dclInv_step s i h)

lemma dclInv_run (sched : List (Fin 2)) : DclInv (Dcl.run sched) := by
  refine dclInv_foldl sched Dcl.initState ⟨rfl, ?_⟩
  intro i h
  simp [Dcl.initState] at h

/-- C9: in every interleaving of two concurrent first-use callers for an
unseen key in which both callers complete the get-or-create block,
exactly one bucket is allocated and inserted, and both callers end up
holding that same bucket instance. -/
theorem dcl_single_bucket_creation (sched : List (Fin 2))
    (h : ∀ i, ((Dcl.run sched).threads i).pc = Dcl.PC.done) :
    ∃ b, (Dcl.run sched).bucket = some b
      ∧ (Dcl.run sched).created = 1
      ∧ ∀ i, ((Dcl.run sched).threads i).localBucket = some b := by
  obtain ⟨hc, hd⟩ := dclInv_run sched
  obtain ⟨hsome, hloc⟩ := hd 0 (h 0)
  obtain ⟨b, hb⟩ := Option.isSome_iff_exists.1 hsome
  refine ⟨b, hb, by rw [hb] at hc; simpa using hc, ?_⟩
  intro i
  have := (hd i (h i)).2
  rw [hb] at this
  exact this

/-- C9 witness: the alternating schedule in which both callers first read
the key as absent completes with one bucket shared by both. -/
theorem dcl_single_bucket_creation_witness :
    (∀ i, ((Dcl.run [0, 1, 0, 1]).threads i).pc = Dcl.PC.done)
    ∧ ∃ b, (Dcl.run [0, 1, 0, 1]).bucket = some b
      ∧ (Dcl.run [0, 1, 0, 1]).created = 1
      ∧ ∀ i, ((Dcl.run [0, 1, 0, 1]).threads i).localBucket = some b :=
  ⟨by decide, dcl_single_bucket_creation [0, 1, 0, 1] (by decide)⟩

/-- C1: contrary to the claim, the spec, and the code's own comment
(`If all messages are too old, clear them`), a prune pass over a nonempty
window all of whose entries are at or before the cutoff leaves the
entries untouched instead of emptying them: the scan's
`firstValidIndex` defaults to 0 when no entry qualifies, so the clearing
branch `firstValidIndex >= len(ctx.Messages)` can never fire.  Here:
one entry stamped 0, pruned with `maxAge` one minute at instant 60 s, so
the cutoff is 0 and no entry is strictly after it, yet the window keeps
its entry. -/
theorem prune_all_stale_leaves_messages :
    (∀ msg ∈ ctxStale.messages,
        ¬ (60000000000 - 1 * Ratelimit.minuteNanos < msg.timestamp))
    ∧ Ctx.pruneChannelContext 1 60000000000 ctxStale = ctxStale
    ∧ ctxStale.messages ≠ [] := by decide

/-- C10: the `channelRequestsPerMinute` argument of `NewChannelLimiter`
is ignored — the constructed state does not depend on it — and the bucket
lazily created for an unseen key is always `NewLimiter(10)`: capacity 10,
refill rate 10 per one-minute interval. -/
theorem channel_param_ignored :
    (∀ (g c1 c2 : Int) (now : Nat),
        Ratelimit.newChannelLimiter g c1 now = Ratelimit.newChannelLimiter g c2 now)
    ∧ ∀ (cl : Ratelimit.ChannelLimiter) (key : String) (now : Nat),
        cl.limiters key = none →
        (Ratelimit.getOrCreateChannelLimiter cl key now).1 = Ratelimit.newLimiter 10 now
        ∧ (Ratelimit.getOrCreateChannelLimiter cl key now).1.maxTokens = 10
        ∧ (Ratelimit.getOrCreateChannelLimiter cl key now).1.refillRate = 10
        ∧ (Ratelimit.getOrCreateChannelLimiter cl key now).1.refillInterval = Ratelimit.minuteNanos
        ∧ (Ratelimit.getOrCreateChannelLimiter cl key now).2.limiters key
            = some (Ratelimit.newLimiter 10 now) := by
  refine ⟨fun g c1 c2 now => rfl, fun cl key now h => ?_⟩
  simp [Ratelimit.getOrCreateChannelLimiter, h, Ratelimit.newLimiter]

/-- C10 witness: a limiter built with per-channel ceiling 7 still creates
the hard-coded `NewLimiter(10)` bucket on first use of channel `"c"`. -/
theorem channel_param_ignored_witness :
    (Ratelimit.newChannelLimiter 5 7 0).limiters "c" = none
    ∧ (Ratelimit.getOrCreateChannelLimiter (Ratelimit.newChannelLimiter 5 7 0) "c" 3).1
        = Ratelimit.newLimiter 10 3
    ∧ (Ratelimit.getOrCreateChannelLimiter (Ratelimit.newChannelLimiter 5 7 0) "c" 3).1.maxTokens = 10
    ∧ (Ratelimit.getOrCreateChannelLimiter (Ratelimit.newChannelLimiter 5 7 0) "c" 3).1.refillRate = 10
    ∧ (Ratelimit.getOrCreateChannelLimiter (Ratelimit.newChannelLimiter 5 7 0) "c" 3).1.refillInterval
        = Ratelimit.minuteNanos
    ∧ (Ratelimit.getOrCreateChannelLimiter (Ratelimit.newChannelLimiter 5 7 0) "c" 3).2.limiters "c"
        = some (Ratelimit.newLimiter 10 3) :=
  ⟨rfl, channel_param_ignored.2 (Ratelimit.newChannelLimiter 5 7 0) "c" 3 rfl⟩

/-- C6: whenever the global bucket holds zero tokens after its refill,
`ChannelLimiter.Allow` rejects without consulting, consuming from, or
creating any per-channel bucket: the decision is `false` and the bucket
map is exactly the one before the call, whatever it contained. -/
theorem global_short_circuit (cl : Ratelimit.ChannelLimiter) (key : String) (now : Nat)
    (h : (Ratelimit.refill cl.globalLimiter now).tokens = 0) :
    (Ratelimit.channelAllow cl key now).1 = false
    ∧ (Ratelimit.channelAllow cl key now).2.limiters = cl.limiters := by
  have hfalse : (Ratelimit.allow cl.globalLimiter now).1 = false := by
    simp [Ratelimit.allow, h]
  constructor <;> simp [Ratelimit.channelAllow, hfalse]

/-- C6 witness: with an exhausted global bucket and a full bucket for
channel `"c"` already present, the call is rejected and the per-channel
map (including channel `"c"`'s five tokens) is untouched. -/
theorem global_short_circuit_witness :
    (Ratelimit.refill clGlobalEmpty.globalLimiter 7).tokens = 0
    ∧ (Ratelimit.channelAllow clGlobalEmpty "c" 7).1 = false
    ∧ (Ratelimit.channelAllow clGlobalEmpty "c" 7).2.limiters = clGlobalEmpty.limiters :=
  ⟨by decide, (global_short_circuit clGlobalEmpty "c" 7 (by decide)).1,
    (global_short_circuit clGlobalEmpty "c" 7 (by decide)).2⟩

lemma refill_bounds (l : Ratelimit.Limiter) (now : Nat)
    (h0 : 0 ≤ l.tokens) (h1 : l.tokens ≤ l.maxTokens) (h2 : 0 ≤ l.maxTokens) :
    0 ≤ (Ratelimit.refill l now).tokens
    ∧ (Ratelimit.refill l now).tokens ≤ (Ratelimit.refill l now).maxTokens
    ∧ (Ratelimit.refill l now).maxTokens = l.maxTokens := by
  unfold Ratelimit.refill
  by_cases h : 0 < Ratelimit.tokensToAdd l now
  · rw [if_pos h]
    exact ⟨le_min h2 (by linarith), min_le_left _ _, rfl⟩
  · rw [if_neg h]
    exact ⟨h0, h1, rfl⟩

lemma applyOp_bounds (cap : Int) (l : Ratelimit.Limiter) (op : Ratelimit.LimiterOp)
    (hcap : 0 ≤ cap)
    (h : 0 ≤ l.tokens ∧ l.tokens ≤ l.maxTokens ∧ l.maxTokens = cap) :
    0 ≤ (Ratelimit.applyOp l op).tokens
    ∧ (Ratelimit.applyOp l op).tokens ≤ (Ratelimit.applyOp l op).maxTokens
    ∧ (Ratelimit.applyOp l op).maxTokens = cap := by
  obtain ⟨h0, h1, h2⟩ := h
  have hM : 0 ≤ l.maxTokens := h2 ▸ hcap
  cases op with
  | allowOp now =>
    obtain ⟨r0, r1, r2⟩ := refill_bounds l now h0 h1 hM
    by_cases hp : 0 < (Ratelimit.refill l now).tokens
    · have e1 : Ratelimit.applyOp l (.allowOp now)
          = { Ratelimit.refill l now with tokens := (Ratelimit.refill l now).tokens - 1 } := by
        simp [Ratelimit.applyOp, Ratelimit.allow, hp]
      rw [e1]
      refine ⟨?_, ?_, ?_⟩
      · show 0 ≤ (Ratelimit.refill l now).tokens - 1
        omega
      · show (Ratelimit.refill l now).tokens - 1 ≤ (Ratelimit.refill l now).maxTokens
        omega
      · show (Ratelimit.refill l now).maxTokens = cap
        rw [r2, h2]
    · have e2 : Ratelimit.applyOp l (.allowOp now) = Ratelimit.refill l now := by
        simp [Ratelimit.applyOp, Ratelimit.allow, hp]
      rw [e2]
      exact ⟨r0, r1, r2.trans h2⟩
  | waitStepOp now =>
    obtain ⟨r0, r1, r2⟩ := refill_bounds l now h0 h1 hM
    by_cases hp : 0 < (Ratelimit.refill l now).tokens
    · have e1 : Ratelimit.applyOp l (.waitStepOp now)
          = { Ratelimit.refill l now with tokens := (Ratelimit.refill l now).tokens - 1 } := by
        simp [Ratelimit.applyOp, Ratelimit.waitStep, hp]
      rw [e1]
      refine ⟨?_, ?_, ?_⟩
      · show 0 ≤ (Ratelimit.refill l now).tokens - 1
        omega
      · show (Ratelimit.refill l now).tokens - 1 ≤ (Ratelimit.refill l now).maxTokens
        omega
      · show (Ratelimit.refill l now).maxTokens = cap
        rw [r2, h2]
    · have e2 : Ratelimit.applyOp l (.waitStepOp now) = Ratelimit.refill l now := by
        simp [Ratelimit.applyOp, Ratelimit.waitStep, hp]
      rw [e2]
      exact ⟨r0, r1, r2.trans h2⟩
  | remainingOp now =>
    obtain ⟨r0, r1, r2⟩ := refill_bounds l now h0 h1 hM
    have e3 : Ratelimit.applyOp l (.remainingOp now) = Ratelimit.refill l now := by
      simp [Ratelimit.applyOp, Ratelimit.remainingTokens]
    rw [e3]
    exact ⟨r0, r1, r2.trans h2⟩

lemma applyOps_bounds (cap : Int) (hcap : 0 ≤ cap) (ops : List Ratelimit.LimiterOp) :
    ∀ l : Ratelimit.Limiter,
      (0 ≤ l.tokens ∧ l.tokens ≤ l.maxTokens ∧ l.maxTokens = cap) →
      0 ≤ (Ratelimit.applyOps l ops).tokens
      ∧ (Ratelimit.applyOps l ops).tokens ≤ (Ratelimit.applyOps l ops).maxTokens
      ∧ (Ratelimit.applyOps l ops).maxTokens = cap := by
  induction ops with
  | nil => intro l h; exact h
  | cons op rest ih =>
    intro l h
    have hstep := applyOp_bounds cap l op hcap h
    simpa [Ratelimit.applyOps, List.foldl] using ih (Ratelimit.applyOp l op) hstep

/-- C7: starting from a freshly constructed bucket of positive capacity,
every sequence of `Allow` calls, `Wait` loop iterations and
`RemainingTokens` calls keeps the token count within
`0 ≤ tokens ≤ capacity`: refill never overshoots the capacity and
consumption never drives the count negative. -/
theorem tokens_invariant (cap : Int) (t0 : Nat) (hcap : 0 < cap)
    (ops : List Ratelimit.LimiterOp) :
    0 ≤ (Ratelimit.applyOps (Ratelimit.newLimiter cap t0) ops).tokens
    ∧ (Ratelimit.applyOps (Ratelimit.newLimiter cap t0) ops).tokens ≤ cap := by
  have h := applyOps_bounds cap (le_of_lt hcap) ops (Ratelimit.newLimiter cap t0)
    ⟨le_of_lt hcap, le_refl _, rfl⟩
  exact ⟨h.1, h.2.1.trans_eq h.2.2⟩

/-- C7 witness: a bucket of capacity 3 stays within bounds across a
burst of operations, including failing `Allow` calls on an empty
bucket. -/
theorem tokens_invariant_witness :
    (0 : Int) < 3
    ∧ 0 ≤ (Ratelimit.applyOps (Ratelimit.newLimiter 3 0)
        [.allowOp 0, .allowOp 0, .allowOp 0, .allowOp 0, .remainingOp 1000000000,
         .waitStepOp 20000000000, .allowOp 20000000000, .remainingOp 120000000000]).tokens
    ∧ (Ratelimit.applyOps (Ratelimit.newLimiter 3 0)
        [.allowOp 0, .allowOp 0, .allowOp 0, .allowOp 0, .remainingOp 1000000000,
         .waitStepOp 20000000000, .allowOp 20000000000, .remainingOp 120000000000]).tokens ≤ 3 :=
  ⟨by decide, tokens_invariant 3 0 (by decide) _⟩

lemma tdiv_cast_floor (e i : Nat) (r : Int) (hr : 0 ≤ r) :
    Int.tdiv ((e : Int) * r) (i : Int) = ⌊((e : ℚ) / (i : ℚ)) * (r : ℚ)⌋ := by
  have h1 : ((e : ℚ) / (i : ℚ)) * (r : ℚ) = (((e : Int) * r : Int) : ℚ) / ((i : Nat) : ℚ) := by
    push_cast
    ring
  rw [h1, Rat.floor_intCast_div_natCast]
  exact Int.tdiv_eq_ediv (mul_nonneg (Int.natCast_nonneg e) hr) (Int.natCast_nonneg i)

lemma flFrac_zero (d : Nat) : Ratelimit.flFrac 0 d = (0, 1) := by
  simp [Ratelimit.flFrac, Ratelimit.roundF64]

lemma tokensToAdd_zero_elapsed (l : Ratelimit.Limiter) :
    Ratelimit.tokensToAdd l l.lastRefill = 0 := by
  simp [Ratelimit.tokensToAdd, Nat.sub_self, flFrac_zero]

/-- C5, amended: the refill gain is the float64 evaluation of
`(elapsed / refillInterval) · refillRate`, which at rounding boundaries
differs from the exact `⌊(elapsed / refillInterval) · refillRate⌋` of
the claim (see the counterexample); the gain is applied clamped to the
capacity, `lastRefill` advances to `now` exactly when the gain is
strictly positive, and zero elapsed time leaves the state unchanged.
Concretely, with capacity 5 and refill rate 5/minute, five `Allow`
calls succeed, the sixth fails, and after 12 further seconds
`RemainingTokens` reports 1. -/
theorem refill_update_spec (l : Ratelimit.Limiter) (now : Nat) :
    ((0 < Ratelimit.tokensToAdd l now →
        Ratelimit.refill l now
          = { l with tokens := min l.maxTokens (l.tokens + Ratelimit.tokensToAdd l now),
                     lastRefill := now })
      ∧ (Ratelimit.tokensToAdd l now ≤ 0 → Ratelimit.refill l now = l)
      ∧ Ratelimit.refill l l.lastRefill = l)
    ∧ ((Ratelimit.allowSeq (Ratelimit.newLimiter 5 0) [0, 0, 0, 0, 0]).1
          = [true, true, true, true, true]
      ∧ (Ratelimit.allow (Ratelimit.allowSeq (Ratelimit.newLimiter 5 0) [0, 0, 0, 0, 0]).2 0).1
          = false
      ∧ (Ratelimit.remainingTokens
          (Ratelimit.allow (Ratelimit.allowSeq (Ratelimit.newLimiter 5 0) [0, 0, 0, 0, 0]).2 0).2
          12000000000).1 = 1) := by
  refine ⟨⟨?_, ?_, ?_⟩, by decide, by decide, by decide⟩
  · intro h
    simp [Ratelimit.refill, if_pos h]
  · intro h
    simp [Ratelimit.refill, if_neg (not_lt.2 h)]
  · simp [Ratelimit.refill, tokensToAdd_zero_elapsed]

/-- C5 counterexample: a bucket created at instant 0 with rate 5/minute,
refilled at elapsed 18014399999999999 ns (one nanosecond short of
300240 minutes): `float64(elapsed)` rounds up to 18014400000000000 (the
unit in the last place there is 4 ns), the quotient becomes exactly
300240, and the program adds 1501200 tokens — whereas the claim's exact
formula `⌊(elapsed / refillInterval) · refillRate⌋` yields 1501199.  So
the gain is not always the exact floor. -/
theorem refill_float_gain_counterexample :
    Ratelimit.tokensToAdd (Ratelimit.newLimiter 5 0) 18014399999999999 = 1501200
    ∧ ⌊(((18014399999999999 : Nat) : ℚ) / ((Ratelimit.minuteNanos : Nat) : ℚ))
        * (((5 : Int)) : ℚ)⌋ = 1501199
    ∧ Ratelimit.tokensToAdd (Ratelimit.newLimiter 5 0) 18014399999999999
        ≠ ⌊(((18014399999999999 : Nat) : ℚ) / ((Ratelimit.minuteNanos : Nat) : ℚ))
            * (((5 : Int)) : ℚ)⌋ := by
  have hfloor : ⌊(((18014399999999999 : Nat) : ℚ) / ((Ratelimit.minuteNanos : Nat) : ℚ))
      * (((5 : Int)) : ℚ)⌋ = 1501199 := by
    rw [← tdiv_cast_floor 18014399999999999 Ratelimit.minuteNanos 5 (by decide)]
    decide
  refine ⟨by decide, hfloor, ?_⟩
  rw [hfloor]
  decide

/-- C5 witness: at 12 s elapsed the gain is strictly positive (it is the
one token of the scenario), so the positive-gain branch of the amended
theorem fires on the scenario bucket. -/
theorem refill_update_spec_witness :
    0 < Ratelimit.tokensToAdd (Ratelimit.newLimiter 5 0) 12000000000
    ∧ Ratelimit.refill (Ratelimit.newLimiter 5 0) 12000000000
        = { Ratelimit.newLimiter 5 0 with
              tokens := min (Ratelimit.newLimiter 5 0).maxTokens
                ((Ratelimit.newLimiter 5 0).tokens
                  + Ratelimit.tokensToAdd (Ratelimit.newLimiter 5 0) 12000000000),
              lastRefill := 12000000000 } :=
  ⟨by decide, (refill_update_spec (Ratelimit.newLimiter 5 0) 12000000000).1.1 (by decide)⟩

lemma withRetryAux_all_retryable (op : Nat → Except Owui.GoError String)
    (e : Nat → Owui.GoError) (cancelled : Nat → Bool)
    (hop : ∀ n, op n = Except.error (e n))
    (hret : ∀ n, Owui.isRetryableError (e n) = true)
    (hcan : ∀ n, cancelled n = false) :
    ∀ (fuel attempt : Nat) (lastErr : Option Owui.GoError),
      Owui.withRetryAux op cancelled attempt (fuel + 1) lastErr
        = (Owui.RetryOutcome.maxRetriesExceeded (some (e (attempt + fuel))), fuel + 1) := by
  intro fuel
  induction fuel with
  | zero =>
    intro attempt lastErr
    unfold Owui.withRetryAux
    rw [hop attempt]
    simp [hcan attempt, hret attempt]
    unfold Owui.withRetryAux
    exact ⟨rfl, rfl⟩
  | succ f ih =>
    intro attempt lastErr
    unfold Owui.withRetryAux
    rw [hop attempt]
    simp only [hcan attempt, hret attempt, Bool.false_eq_true, and_false, if_false, if_true,
      lt_irrefl]
    rw [ih (attempt + 1) (some (e attempt))]
    have harith : attempt + 1 + f = attempt + (f + 1) := by omega
    simp [harith]

/-- C3: with every invocation failing retryably and no cancellation,
`WithRetry` with `maxRetries = N` invokes the operation exactly `N + 1`
times and returns the exhausted-retries wrapper around the last failure;
with a first invocation failing non-retryably it invokes the operation
exactly once and returns the non-retryable wrapper; the two outcomes are
distinct constructors, hence distinguishable by the caller. -/
theorem withRetry_attempt_counts (N : Nat) (cancelled : Nat → Bool)
    (hcan : ∀ n, cancelled n = false) :
    (∀ (op : Nat → Except Owui.GoError String) (e : Nat → Owui.GoError),
        (∀ n, op n = Except.error (e n)) →
        (∀ n, Owui.isRetryableError (e n) = true) →
        Owui.withRetry op cancelled N
          = (Owui.RetryOutcome.maxRetriesExceeded (some (e N)), N + 1))
    ∧ (∀ (op : Nat → Except Owui.GoError String) (e0 : Owui.GoError),
        op 0 = Except.error e0 → Owui.isRetryableError e0 = false →
        Owui.withRetry op cancelled N = (Owui.RetryOutcome.nonRetryable e0, 1))
    ∧ (∀ (x : Option Owui.GoError) (y : Owui.GoError),
        Owui.RetryOutcome.maxRetriesExceeded x ≠ Owui.RetryOutcome.nonRetryable y) := by
  refine ⟨?_, ?_, ?_⟩
  · intro op e hop hret
    have h := withRetryAux_all_retryable op e cancelled hop hret hcan N 0 none
    simpa [Owui.withRetry] using h
  · intro op e0 hop0 hret0
    unfold Owui.withRetry Owui.withRetryAux
    rw [hop0]
    simp [hret0]
  · intro x y h
    exact Owui.RetryOutcome.noConfusion h

/-- C3 witness: an operation that always times out, with `maxRetries = 3`
and no cancellation, is invoked 4 times and ends in the
exhausted-retries outcome. -/
theorem withRetry_attempt_counts_witness :
    Owui.withRetry (fun _ => Except.error Owui.GoError.deadlineExceeded) (fun _ => false) 3
      = (Owui.RetryOutcome.maxRetriesExceeded (some Owui.GoError.deadlineExceeded), 4)
    ∧ Owui.withRetry (fun _ => Except.error (Owui.GoError.textual "API error: bad request"))
        (fun _ => false) 3
      = (Owui.RetryOutcome.nonRetryable (Owui.GoError.textual "API error: bad request"), 1) :=
  ⟨(withRetry_attempt_counts 3 (fun _ => false) (fun _ => rfl)).1
      (fun _ => Except.error Owui.GoError.deadlineExceeded) (fun _ => Owui.GoError.deadlineExceeded)
      (fun _ => rfl) (fun _ => rfl),
    (withRetry_attempt_counts 3 (fun _ => false) (fun _ => rfl)).2.1
      (fun _ => Except.error (Owui.GoError.textual "API error: bad request"))
      (Owui.GoError.textual "API error: bad request") rfl (by decide)⟩

lemma withRetryAux_cancelled (op : Nat → Except Owui.GoError String)
    (e : Nat → Owui.GoError) (cancelled : Nat → Bool) (n : Nat)
    (hop : ∀ k, k < n → op k = Except.error (e k))
    (hret : ∀ k, k < n → Owui.isRetryableError (e k) = true)
    (hcan : ∀ k, k < n → cancelled k = false)
    (hn : 1 ≤ n) (hcn : cancelled n = true) :
    ∀ (fuel attempt : Nat) (lastErr : Option Owui.GoError),
      attempt ≤ n → n < attempt + fuel →
      Owui.withRetryAux op cancelled attempt fuel lastErr
        = (Owui.RetryOutcome.cancelledDuringBackoff n, n - attempt) := by
  intro fuel
  induction fuel with
  | zero =>
    intro attempt lastErr h1 h2
    omega
  | succ f ih =>
    intro attempt lastErr h1 h2
    by_cases heq : attempt = n
    · subst heq
      unfold Owui.withRetryAux
      rw [if_pos ⟨by omega, hcn⟩]
      simp
    · have hlt : attempt < n := by omega
      unfold Owui.withRetryAux
      rw [if_neg (by simp [hcan attempt hlt])]
      rw [hop attempt hlt]
      simp only [hret attempt hlt, if_true]
      rw [ih (attempt + 1) (some (e attempt)) (by omega) (by omega)]
      have harith : n - (attempt + 1) + 1 = n - attempt := by omega
      simp [harith]

/-- C4, amended: for retry attempts `1 ≤ n ≤ 34` the backoff slept
before attempt `n` equals `min(30 s, 2^(n−1) s)` (for larger `n` the
int64 nanosecond computation overflows, see the counterexample); and
when the cancellation signal fires during the backoff before attempt
`n`, `WithRetry` returns the cancellation outcome at once, having
invoked the operation only the `n` times of the earlier attempts. -/
theorem backoff_cap_and_cancellation :
    (∀ n : Nat, 1 ≤ n → n ≤ 34 →
        Owui.backoffNanos n = (min 30 (2 ^ (n - 1)) : Int) * Owui.secondNanos)
    ∧ (∀ (op : Nat → Except Owui.GoError String) (e : Nat → Owui.GoError)
        (cancelled : Nat → Bool) (n N : Nat),
        1 ≤ n → n ≤ N →
        (∀ k, k < n → op k = Except.error (e k)) →
        (∀ k, k < n → Owui.isRetryableError (e k) = true) →
        (∀ k, k < n → cancelled k = false) → cancelled n = true →
        Owui.withRetry op cancelled N
          = (Owui.RetryOutcome.cancelledDuringBackoff n, n)) := by
  constructor
  · intro n h1 h2
    interval_cases n <;> decide
  · intro op e cancelled n N h1 h2 hop hret hcan hcn
    have h := withRetryAux_cancelled op e cancelled n hop hret hcan h1 hcn
      (N + 1) 0 none (by omega) (by omega)
    simpa [Owui.withRetry] using h

/-- C4 counterexample: at retry attempt 35 the Go computation
`time.Duration(1<<34) * time.Second` overflows int64 and yields a
negative duration instead of the claimed 30-second cap, so the backoff
does not equal `min(30 s, 2^(35−1) s)`. -/
theorem backoff_overflow_counterexample :
    Owui.backoffNanos 35 ≠ (min 30 (2 ^ (35 - 1)) : Int) * Owui.secondNanos
    ∧ Owui.backoffNanos 35 = -1266874889709551616 := by decide

/-- C4 witness: before attempt 1 the backoff is one second, and a
cancellation firing during the backoff before attempt 1 ends the run
after a single invocation. -/
theorem backoff_cap_and_cancellation_witness :
    Owui.backoffNanos 1 = (min 30 (2 ^ (1 - 1)) : Int) * Owui.secondNanos
    ∧ Owui.withRetry (fun _ => Except.error Owui.GoError.deadlineExceeded)
        (fun k => decide (k = 1)) 3
      = (Owui.RetryOutcome.cancelledDuringBackoff 1, 1) :=
  ⟨backoff_cap_and_cancellation.1 1 (by decide) (by decide),
    backoff_cap_and_cancellation.2 (fun _ => Except.error Owui.GoError.deadlineExceeded)
      (fun _ => Owui.GoError.deadlineExceeded) (fun k => decide (k = 1)) 1 3
      (by decide) (by decide) (fun k _ => rfl) (fun k _ => rfl)
      (fun k hk => by simp; omega) (by decide)⟩

lemma data_append (a b : String) : (a ++ b).data = a.data ++ b.data := rfl

lemma startsWithList_self_append : ∀ sub t : List Char,
    Owui.startsWithList sub (sub ++ t) = true := by
  intro sub
  induction sub with
  | nil => intro t; rfl
  | cons a as ih =>
    intro t
    simp [Owui.startsWithList, ih]

lemma containsList_of_startsWith (s sub : List Char)
    (h : Owui.startsWithList sub s = true) : Owui.containsList s sub = true := by
  cases s with
  | nil =>
    cases sub with
    | nil => rfl
    | cons b bs => simp [Owui.startsWithList] at h
  | cons c rest =>
    simp [Owui.containsList, h]

lemma containsList_append_left (p s sub : List Char)
    (h : Owui.containsList s sub = true) : Owui.containsList (p ++ s) sub = true := by
  induction p with
  | nil => simpa using h
  | cons c cs ih =>
    have hstep : Owui.containsList (c :: (cs ++ s)) sub
        = (Owui.startsWithList sub (c :: (cs ++ s)) || Owui.containsList (cs ++ s) sub) := rfl
    rw [List.cons_append, hstep, ih, Bool.or_true]

lemma contains_status5_aux (t rest : List Char) :
    Owui.containsList ("API error: status ".data ++ ('5' :: t) ++ rest)
      ("status 5".data) = true := by
  have hconcat : "API error: ".data ++ "status 5".data
      = "API error: status ".data ++ ['5'] := by decide
  have h1 : "API error: status ".data ++ ('5' :: t) ++ rest
      = "API error: ".data ++ ("status 5".data ++ (t ++ rest)) := by
    rw [← List.append_assoc, hconcat]
    simp [List.append_assoc]
  rw [h1]
  exact containsList_append_left _ _ _
    (containsList_of_startsWith _ _ (startsWithList_self_append _ _))

lemma repr_5xx_head : ∀ k : Fin 100, (Nat.repr (500 + k.1)).data.head? = some '5' := by
  decide

/-- C2, amended: an error whose text carries the textual signal —
containing `"429"`, or a 5xx status rendered through the unparsed-body
fallback message `API error: status <code>, body: ...` — is classified
retryable.  (A 5xx response whose body unmarshals into the structured
error message carries no such signal and is not retried; see the
counterexample.) -/
theorem retryable_textual_signal :
    (∀ (statusCode : Nat) (body : String), 500 ≤ statusCode → statusCode < 600 →
        Owui.isRetryableError
          (Owui.GoError.textual (Owui.apiErrorMessage statusCode none body)) = true)
    ∧ (∀ s : String, Owui.goContains s "429" = true →
        Owui.isRetryableError (Owui.GoError.textual s) = true) := by
  constructor
  · intro statusCode body h1 h2
    have hk : statusCode - 500 < 100 := by omega
    have hhead := repr_5xx_head ⟨statusCode - 500, hk⟩
    have heq : 500 + (statusCode - 500) = statusCode := by omega
    rw [heq] at hhead
    obtain ⟨t, ht⟩ : ∃ t, (Nat.repr statusCode).data = '5' :: t := by
      cases hrepr : (Nat.repr statusCode).data with
      | nil => rw [hrepr] at hhead; simp at hhead
      | cons a as =>
        rw [hrepr] at hhead
        simp at hhead
        exact ⟨as, by rw [hhead]⟩
    have hdata : ("API error: status " ++ Nat.repr statusCode ++ ", body: " ++ body).data
        = "API error: status ".data ++ ('5' :: t) ++ (", body: ".data ++ body.data) := by
      simp [data_append, ht, List.append_assoc]
    have hcontains : Owui.goContains
        ("API error: status " ++ Nat.repr statusCode ++ ", body: " ++ body) "status 5" = true := by
      unfold Owui.goContains
      rw [hdata]
      exact contains_status5_aux t _
    simp [Owui.isRetryableError, Owui.apiErrorMessage, hcontains]
  · intro s h
    simp [Owui.isRetryableError, h]

/-- C2 counterexample: a 500 response whose body unmarshals into the
structured error message (here `API error: upstream failure (type:
server_error, code: internal)`) contains neither `"429"` nor
`"status 5"`, so `isRetryableError` classifies it non-retryable, contrary
to the claim that every 5xx-carrying error is retryable. -/
theorem retryable_5xx_counterexample :
    Owui.isRetryableError (Owui.GoError.textual (Owui.apiErrorMessage 500
      (some { message := "upstream failure", etype := "server_error", code := "internal" })
      "")) = false := by decide

/-- C2 witness: a 503 response whose body fails to unmarshal produces
the fallback text and is classified retryable, as is any error text
containing `429`. -/
theorem retryable_textual_signal_witness :
    Owui.isRetryableError
      (Owui.GoError.textual (Owui.apiErrorMessage 503 none "Service Unavailable")) = true
    ∧ Owui.isRetryableError
      (Owui.GoError.textual "API error: too many requests (code: 429)") = true :=
  ⟨retryable_textual_signal.1 503 "Service Unavailable" (by decide) (by decide),
    retryable_textual_signal.2 "API error: too many requests (code: 429)" (by decide)⟩

/-- C8: a window whose `lastActive` lies strictly before
`now − 2·maxAge` at sweep time is deleted whole: afterwards
`GetContextSize` reports 0 and `GetMessages` returns the empty list
rather than an error; every other window is instead prefix-pruned in
place by the same sweep. -/
theorem cleanup_sweep_spec (m : Ctx.ContextMap) (maxAgeMinutes now : Nat)
    (k : String) (ctx : Ctx.ChannelContext) (hm : m k = some ctx) :
    (ctx.lastActive < now - maxAgeMinutes * 2 * Ratelimit.minuteNanos →
        Ctx.cleanupInactiveContexts m maxAgeMinutes now k = none
        ∧ Ctx.getContextSize (Ctx.cleanupInactiveContexts m maxAgeMinutes now) k = 0
        ∧ Ctx.getMessages (Ctx.cleanupInactiveContexts m maxAgeMinutes now) k = [])
    ∧ (¬ ctx.lastActive < now - maxAgeMinutes * 2 * Ratelimit.minuteNanos →
        Ctx.cleanupInactiveContexts m maxAgeMinutes now k
          = some (Ctx.pruneChannelContext maxAgeMinutes now ctx)) := by
  constructor
  · intro h
    have hdel : Ctx.cleanupInactiveContexts m maxAgeMinutes now k = none := by
      simp [Ctx.cleanupInactiveContexts, hm, h]
    exact ⟨hdel, by simp [Ctx.getContextSize, hdel], by simp [Ctx.getMessages, hdel]⟩
  · intro h
    simp [Ctx.cleanupInactiveContexts, hm, h]

/-- C8 witness: sweeping at instant 300 s with `maxAge` one minute
deletes the window idle since instant 0 (size 0, read yields `[]`) and
merely prunes the window active at instant 300 s. -/
theorem cleanup_sweep_spec_witness :
    mapTwoWindows "old" = some ctxOld
    ∧ Ctx.cleanupInactiveContexts mapTwoWindows 1 300000000000 "old" = none
    ∧ Ctx.getContextSize (Ctx.cleanupInactiveContexts mapTwoWindows 1 300000000000) "old" = 0
    ∧ Ctx.getMessages (Ctx.cleanupInactiveContexts mapTwoWindows 1 300000000000) "old" = []
    ∧ Ctx.cleanupInactiveContexts mapTwoWindows 1 300000000000 "fresh"
        = some (Ctx.pruneChannelContext 1 300000000000 ctxFresh) := by
  have h1 := (cleanup_sweep_spec mapTwoWindows 1 300000000000 "old" ctxOld rfl).1 (by decide)
  have h2 := (cleanup_sweep_spec mapTwoWindows 1 300000000000 "fresh" ctxFresh rfl).2 (by decide)
  exact ⟨rfl, h1.1, h1.2.1, h1.2.2, h2⟩
